import Mathlib

/-!
Verification development for the Raisely → Storyblok reconciliation engine.

The JavaScript sources are embedded shallowly:
* numbers flow through `JNum`, a tagged value covering `null`/`undefined`,
  `NaN` and rational numbers (all Raisely amounts are integers in minor
  currency units, so exact rationals model the arithmetic faithfully);
* strings are Lean `String`s; optional fields are `Option`s, and JavaScript
  truthiness of a string-valued field is `jsStrTruthy`;
* store (Storyblok) calls are modelled by explicit environment parameters
  (lookup results, create outcomes) and by operation traces, with `Except`
  capturing thrown errors.
-/

/-- A JavaScript numeric slot: absent (`null`/`undefined`), `NaN`, or a number. -/
inductive JNum where
  | null
  | nan
  | num (q : ℚ)
  deriving DecidableEq, Repr

/-- JavaScript truthiness of a `JNum` (0, NaN, null and undefined are falsy). -/
def jnumTruthy : JNum → Bool
  | .num q => q ≠ 0
  | _ => false

/-- The disjunction `a || b` on numeric slots. -/
def jnumOr (a b : JNum) : JNum := if jnumTruthy a then a else b

/-- JavaScript truthiness of an optional string (undefined and `""` are falsy). -/
def jsStrTruthy : Option String → Bool
  | some s => s ≠ ""
  | none => false

/-- JavaScript `Math.round`: round half toward positive infinity. -/
def mathRound (q : ℚ) : ℤ := ⌊q + 1 / 2⌋

/-- JavaScript `x.toFixed(2)` followed by `parseFloat`: round to two decimals, half up. -/
def toFixed2 (q : ℚ) : ℚ := (mathRound (q * 100) : ℚ) / 100

/-- Embeds `BulkImporter.normalizeAmount` (scripts/bulk-import.js):
`if (!amount || isNaN(amount)) return 0; return parseFloat((amount / 100).toFixed(2));`. -/
def normalizeAmountBulk : JNum → ℚ
  | .null => 0
  | .nan => 0
  | .num q => if q = 0 then 0 else toFixed2 (q / 100)

/-- Embeds `WebhookController.normalizeAmount` (src/controllers/webhookController.js):
`if (!amount || isNaN(amount)) return 0; if (amount > 1000) return Math.round(amount / 100);
return Math.round(amount);`. -/
def normalizeAmountWebhook : JNum → ℚ
  | .null => 0
  | .nan => 0
  | .num q => if q = 0 then 0 else if q > 1000 then (mathRound (q / 100) : ℚ) else (mathRound q : ℚ)

theorem mathRound_intCast (n : ℤ) : mathRound (n : ℚ) = n := by
  unfold mathRound
  rw [add_comm, Int.floor_add_int]
  have h0 : ⌊(1 / 2 : ℚ)⌋ = 0 := by
    rw [Int.floor_eq_zero_iff]
    constructor <;> norm_num
  omega

theorem normalizeAmountBulk_int (n : ℤ) (hn : n ≠ 0) :
    normalizeAmountBulk (.num (n : ℚ)) = (n : ℚ) / 100 := by
  have hq : ((n : ℚ)) ≠ 0 := Int.cast_ne_zero.mpr hn
  simp only [normalizeAmountBulk, toFixed2]
  rw [if_neg hq, div_mul_cancel₀ _ (by norm_num : (100 : ℚ) ≠ 0), mathRound_intCast]

theorem normalizeAmountWebhook_small (n : ℤ) (h0 : n ≠ 0) (h1 : (n : ℚ) ≤ 1000) :
    normalizeAmountWebhook (.num (n : ℚ)) = (n : ℚ) := by
  have hq : ((n : ℚ)) ≠ 0 := Int.cast_ne_zero.mpr h0
  simp only [normalizeAmountWebhook]
  rw [if_neg hq, if_neg (by exact not_lt.mpr h1), mathRound_intCast]

theorem normalizeAmountWebhook_large (n : ℤ) (h1 : (1000 : ℚ) < (n : ℚ)) :
    normalizeAmountWebhook (.num (n : ℚ)) = (mathRound ((n : ℚ) / 100) : ℚ) := by
  have hq : ((n : ℚ)) ≠ 0 := by
    intro h
    rw [h] at h1
    norm_num at h1
  simp only [normalizeAmountWebhook]
  rw [if_neg hq, if_pos h1]

/-- C1 counterexample: for the webhook-path normalizer, an input of `500`
minor units is returned as `500`, not converted to `5.00`. -/
theorem normalizeAmountWebhook_500_cex :
    normalizeAmountWebhook (.num 500) = 500 ∧ (500 : ℚ) ≠ 5 := by
  constructor
  · have h := normalizeAmountWebhook_small 500 (by norm_num) (by norm_num)
    simpa using h
  · norm_num

/-- C1 (amended): the bulk-path normalizer converts minor units to major units
by dividing by 100 (exact for integer minor-unit inputs, so `500 ↦ 5.00` and
`15000 ↦ 150.00`, with `0`/`null`/`NaN ↦ 0`); the webhook-path normalizer
instead returns amounts of at most 1000 rounded to the nearest integer without
any division, and divides by 100 with integer rounding only for amounts above
1000 (so `500 ↦ 500` while `15000 ↦ 150`, with `0`/`null`/`NaN ↦ 0`). -/
theorem amount_normalizers_amended :
    (∀ n : ℤ, n ≠ 0 → normalizeAmountBulk (.num (n : ℚ)) = (n : ℚ) / 100)
    ∧ normalizeAmountBulk (.num 500) = 5
    ∧ normalizeAmountBulk (.num 15000) = 150
    ∧ normalizeAmountBulk .null = 0 ∧ normalizeAmountBulk .nan = 0
    ∧ normalizeAmountBulk (.num 0) = 0
    ∧ (∀ n : ℤ, n ≠ 0 → (n : ℚ) ≤ 1000 → normalizeAmountWebhook (.num (n : ℚ)) = (n : ℚ))
    ∧ (∀ n : ℤ, (1000 : ℚ) < (n : ℚ) →
        normalizeAmountWebhook (.num (n : ℚ)) = (mathRound ((n : ℚ) / 100) : ℚ))
    ∧ normalizeAmountWebhook (.num 500) = 500
    ∧ normalizeAmountWebhook (.num 15000) = 150
    ∧ normalizeAmountWebhook .null = 0 ∧ normalizeAmountWebhook .nan = 0
    ∧ normalizeAmountWebhook (.num 0) = 0 := by
  refine ⟨normalizeAmountBulk_int, ?_, ?_, rfl, rfl, by simp [normalizeAmountBulk],
    normalizeAmountWebhook_small, normalizeAmountWebhook_large, ?_, ?_, rfl, rfl,
    by simp [normalizeAmountWebhook]⟩
  · have h := normalizeAmountBulk_int 500 (by norm_num)
    rw [show ((500 : ℤ) : ℚ) = (500 : ℚ) by norm_num] at h
    rw [h]; norm_num
  · have h := normalizeAmountBulk_int 15000 (by norm_num)
    rw [show ((15000 : ℤ) : ℚ) = (15000 : ℚ) by norm_num] at h
    rw [h]; norm_num
  · have h := normalizeAmountWebhook_small 500 (by norm_num) (by norm_num)
    simpa using h
  · have h := normalizeAmountWebhook_large 15000 (by norm_num)
    rw [show ((15000 : ℤ) : ℚ) = (15000 : ℚ) by norm_num] at h
    rw [h]
    have : mathRound ((15000 : ℚ) / 100) = 150 := by
      rw [show ((15000 : ℚ) / 100) = ((150 : ℤ) : ℚ) by norm_num, mathRound_intCast]
    rw [this]; norm_num

/-- C1 witness: the amended theorem applied at concrete inputs. -/
theorem amount_normalizers_amended_witness :
    normalizeAmountBulk (.num ((500 : ℤ) : ℚ)) = ((500 : ℤ) : ℚ) / 100
    ∧ normalizeAmountWebhook (.num ((700 : ℤ) : ℚ)) = ((700 : ℤ) : ℚ)
    ∧ normalizeAmountWebhook (.num ((15000 : ℤ) : ℚ)) = (mathRound (((15000 : ℤ) : ℚ) / 100) : ℚ) :=
  ⟨amount_normalizers_amended.1 500 (by norm_num),
   (amount_normalizers_amended.2.2.2.2.2.2.1) 700 (by norm_num) (by norm_num),
   (amount_normalizers_amended.2.2.2.2.2.2.2.1) 15000 (by norm_num)⟩

/-- The JavaScript `\s` class restricted to its ASCII members (the inputs the
engine sees are ASCII display names). -/
def isJsWhitespace (c : Char) : Bool :=
  c = ' ' || c = '\t' || c = '\n' || c = '\r' || c = '\x0b' || c = '\x0c'

/-- The character class `[a-z0-9\s-]` kept by the first `replace` of `createSlug`. -/
def isSlugKept (c : Char) : Bool :=
  ('a' ≤ c && c ≤ 'z') || ('0' ≤ c && c ≤ '9') || isJsWhitespace c || c = '-'

/-- Replace each maximal run of characters satisfying `p` by the single
character `r` (the semantics of `String.replace(/p+/g, r)`); the flag records
whether the previous character was part of a run. -/
def replaceRunsGo (p : Char → Bool) (r : Char) : Bool → List Char → List Char
  | _, [] => []
  | inRun, c :: cs =>
    if p c then
      (if inRun then replaceRunsGo p r true cs else r :: replaceRunsGo p r true cs)
    else c :: replaceRunsGo p r false cs

def replaceRuns (p : Char → Bool) (r : Char) (l : List Char) : List Char :=
  replaceRunsGo p r false l

/-- JavaScript `String.prototype.trim`: strips leading and trailing whitespace.  Its
argument list is empty in JavaScript, so `.trim('-')` in the source behaves
exactly like `.trim()`. -/
def jsTrim (l : List Char) : List Char :=
  ((l.dropWhile isJsWhitespace).reverse.dropWhile isJsWhitespace).reverse

/-- Embeds `StoryblokService.createSlug` (src/services/storyblokService.js):
lower-case, strip characters outside `[a-z0-9\s-]`, replace whitespace runs
with `-`, collapse hyphen runs, then `.trim('-')` (which, being JavaScript
`trim`, removes whitespace only). -/
def createSlug (s : String) : String :=
  String.mk (jsTrim (replaceRuns (fun c => c = '-') '-'
    (replaceRuns isJsWhitespace '-' ((s.data.map Char.toLower).filter isSlugKept))))

/-- C3: evaluating the slug normalizer at `" a "`.  Whitespace at the ends is
turned into hyphens before the final `trim`, and `trim('-')` removes
whitespace, not hyphens, so the leading and trailing hyphens survive; the
claim (and the source's own comment) say they are removed. -/
theorem createSlug_trim_bug : createSlug " a " = "-a-" := by decide

/-- The content object of a team story: the `component` marker, the `team`
member-UUID list, and the remaining fields (kept verbatim as key/value pairs;
their values do not matter to the merge, only their preservation). -/
structure StoryContent where
  component : Option String
  team : Option (List String)
  fields : List (String × String)
  deriving DecidableEq, Repr

/-- What `addTeamMember` did after the team node was resolved: the content
written back (`none` when no write was issued) and whether a publish of the
team node was attempted. -/
structure AddTrace where
  contentWrite : Option StoryContent
  publishAttempted : Bool
  deriving DecidableEq, Repr

inductive AddResult where
  | notFound
  | done (t : AddTrace)
  deriving DecidableEq, Repr

/-- Embeds `StoryblokService.addTeamMember` (src/services/storyblokService.js).
`findResult` is the outcome of `findTeamStory` (which swallows its own errors
and returns `null` on a miss); `refetch` is the fresh by-id story fetch, whose
thrown errors are re-thrown by the surrounding catch; the membership write
itself is modelled as succeeding.  When the re-fetched story has no content the
source initialises it to `{ component: 'fundraiser' }` before spreading. -/
def addTeamMemberModel (findResult : Option Nat)
    (refetch : Nat → Except String (Option StoryContent))
    (memberUuid : String) : Except String AddResult :=
  match findResult with
  | none => .ok .notFound
  | some storyId =>
    match refetch storyId with
    | .error e => .error e
    | .ok retrieved =>
      let content : StoryContent :=
        match retrieved with
        | none => ⟨some "fundraiser", none, []⟩
        | some c => c
      let currentMembers := content.team.getD []
      if memberUuid ∈ currentMembers then
        .ok (.done ⟨none, true⟩)
      else
        .ok (.done ⟨some { content with team := some (currentMembers ++ [memberUuid]) }, true⟩)

/-- The member list of a re-fetched content slot, defaulting to the empty list
when the content or its `team` field is absent. -/
def teamListOf : Option StoryContent → List String
  | none => []
  | some c => c.team.getD []

/-- Modelled from the spec: the content object the claim says is written back —
the freshly re-fetched content with only the `team` field replaced by the
previous list with the member appended, every other field untouched. -/
def specTeamReplace (retrieved : Option StoryContent) (memberUuid : String) : StoryContent :=
  let c := retrieved.getD ⟨none, none, []⟩
  { c with team := some (c.team.getD [] ++ [memberUuid]) }

/-- C2 counterexample: when the re-fetched team story has no content at all,
the content written back carries the initialised `component := "fundraiser"`
marker, so it differs from the re-fetched content with only `team` replaced. -/
theorem addTeamMember_absent_content_cex :
    addTeamMemberModel (some 0) (fun _ => Except.ok none) "m"
        = .ok (.done ⟨some ⟨some "fundraiser", some ["m"], []⟩, true⟩)
    ∧ specTeamReplace none "m" = ⟨none, some ["m"], []⟩
    ∧ (⟨some "fundraiser", some ["m"], []⟩ : StoryContent) ≠ ⟨none, some ["m"], []⟩ := by
  refine ⟨rfl, rfl, by decide⟩

/-- C2 (amended): once the team node is resolved and re-fetched, a member
already in the list (defaulting to empty when content or the field is absent)
causes no content write but still a publish attempt; otherwise the write
appends exactly the new member to the list, preserving every other content
field verbatim whenever the re-fetched story had content, and installing the
initial `component := "fundraiser"` marker when it had none — so the member
list never shrinks and gains exactly one element. -/
theorem addTeamMember_merge_amended (storyId : Nat)
    (r : Nat → Except String (Option StoryContent))
    (c : Option StoryContent) (m : String) (hr : r storyId = .ok c) :
    (m ∈ teamListOf c → addTeamMemberModel (some storyId) r m = .ok (.done ⟨none, true⟩))
    ∧ (m ∉ teamListOf c →
        ∃ w : StoryContent,
          addTeamMemberModel (some storyId) r m = .ok (.done ⟨some w, true⟩)
          ∧ w.team = some (teamListOf c ++ [m])
          ∧ (∀ cc, c = some cc → w.component = cc.component ∧ w.fields = cc.fields)
          ∧ (c = none → w = ⟨some "fundraiser", some [m], []⟩)) := by
  constructor
  · intro hm
    simp only [addTeamMemberModel, hr]
    cases c with
    | none => simp [teamListOf] at hm
    | some cc =>
      simp only [teamListOf] at hm
      simp [hm]
  · intro hm
    simp only [addTeamMemberModel, hr]
    cases c with
    | none =>
      refine ⟨⟨some "fundraiser", some [m], []⟩, ?_, rfl, by simp, fun _ => rfl⟩
      simp [teamListOf] at hm ⊢
    | some cc =>
      simp only [teamListOf] at hm
      refine ⟨{ cc with team := some (cc.team.getD [] ++ [m]) }, ?_, rfl, ?_, by simp⟩
      · simp [hm]
      · intro cc' hcc'
        cases hcc'
        exact ⟨rfl, rfl⟩

/-- C2 witness: the amended theorem at a concrete resolved team story. -/
theorem addTeamMember_merge_amended_witness :
    ("b" ∉ teamListOf (some ⟨some "fundraiser", some ["a"], [("name", "T")]⟩))
    ∧ ∃ w : StoryContent,
        addTeamMemberModel (some 7)
          (fun _ => Except.ok (some ⟨some "fundraiser", some ["a"], [("name", "T")]⟩)) "b"
          = .ok (.done ⟨some w, true⟩)
        ∧ w.team = some (teamListOf (some ⟨some "fundraiser", some ["a"], [("name", "T")]⟩) ++ ["b"])
        ∧ (∀ cc, (some ⟨some "fundraiser", some ["a"], [("name", "T")]⟩ : Option StoryContent) = some cc →
            w.component = cc.component ∧ w.fields = cc.fields)
        ∧ ((some ⟨some "fundraiser", some ["a"], [("name", "T")]⟩ : Option StoryContent) = none →
            w = ⟨some "fundraiser", some ["b"], []⟩) :=
  ⟨by decide,
   (addTeamMember_merge_amended 7
      (fun _ => Except.ok (some ⟨some "fundraiser", some ["a"], [("name", "T")]⟩))
      (some ⟨some "fundraiser", some ["a"], [("name", "T")]⟩) "b" rfl).2 (by decide)⟩

/-- C6 counterexample: a team-resolution miss makes `addTeamMember` return
silently (a logged warning and `return`), not propagate an error. -/
theorem addTeamMember_notFound_silent :
    addTeamMemberModel none (fun _ => Except.error "lookup failed") "m" = .ok .notFound := rfl

/-- C6 (amended): a failure of the fresh by-id re-fetch — after resolution and
before the membership write — is propagated to the caller, but a failure to
resolve the team node by path is not: it results in a silent no-op return. -/
theorem addTeamMember_error_policy_amended (storyId : Nat)
    (r : Nat → Except String (Option StoryContent)) (m e : String)
    (hr : r storyId = .error e) :
    addTeamMemberModel (some storyId) r m = .error e
    ∧ (∀ r' : Nat → Except String (Option StoryContent), ∀ m' : String,
        addTeamMemberModel none r' m' = .ok .notFound) := by
  constructor
  · simp [addTeamMemberModel, hr]
  · intro r' m'
    rfl

/-- C6 witness: the amended theorem at a concrete failing re-fetch. -/
theorem addTeamMember_error_policy_amended_witness :
    addTeamMemberModel (some 3) (fun _ => Except.error "boom") "m" = .error "boom" :=
  (addTeamMember_error_policy_amended 3 (fun _ => Except.error "boom") "m" "boom" rfl).1

/-- One store-facing operation of an upsert, in issue order. -/
inductive StoreOp where
  | teamResolve
  | contentWrite (existed : Bool)
  | publishAttempt
  | unpublishAttempt
  | mergeMember
  deriving DecidableEq, Repr

structure UpsertOutcome where
  action : String
  ops : List StoreOp
  deriving DecidableEq, Repr

/-- Outcome of a single store call, as chosen by the environment. -/
def attempt (fails : Bool) : Except String Unit :=
  if fails then .error "store call failed" else .ok ()

/-- The publish/unpublish decision shared (textually duplicated) by
`createOrUpdateFundraiser` and `syncTeam`: publish when the source status is
`ACTIVE`; otherwise unpublish when the status is `DRAFT` and the node already
existed; otherwise do nothing. -/
def publishPhaseOps (status : String) (existed : Bool) : List StoreOp :=
  if status = "ACTIVE" then [.publishAttempt]
  else if status = "DRAFT" ∧ existed = true then [.unpublishAttempt]
  else []

/-- Embeds `StoryblokService.createOrUpdateFundraiser`
(src/services/storyblokService.js).  `teamPresent` says whether team data was
supplied; the team reference is then resolved (or a minimal team story
created), and the member merge at the end runs exactly when it was.  The
publish and unpublish calls each sit in a try/catch that only logs, so their
failures (`publishFails`/`unpublishFails`) never change the returned value —
the content write has already persisted.  URL/description assembly and
logging are omitted. -/
def createOrUpdateFundraiserModel (teamPresent : Bool) (status : String) (existed : Bool)
    (publishFails unpublishFails : Bool) : Except String UpsertOutcome :=
  let action := if existed then "updated" else "created"
  let pre : List StoreOp := (if teamPresent then [.teamResolve] else []) ++ [.contentWrite existed]
  let post : List StoreOp := if teamPresent then [.mergeMember] else []
  if status = "ACTIVE" then
    match attempt publishFails with
    | .error _ => .ok ⟨action, pre ++ [.publishAttempt] ++ post⟩
    | .ok _ => .ok ⟨action, pre ++ [.publishAttempt] ++ post⟩
  else if status = "DRAFT" ∧ existed = true then
    match attempt unpublishFails with
    | .error _ => .ok ⟨action, pre ++ [.unpublishAttempt] ++ post⟩
    | .ok _ => .ok ⟨action, pre ++ [.unpublishAttempt] ++ post⟩
  else
    .ok ⟨action, pre ++ post⟩

/-- Embeds the upsert core of `StoryblokService.syncTeam`
(src/services/storyblokService.js): existing-member preservation and folder
resolution happen earlier (their failures throw before this point); after the
content write the same publish/unpublish transition runs, each call in a
log-only try/catch. -/
def syncTeamModel (status : String) (existed : Bool)
    (publishFails unpublishFails : Bool) : Except String UpsertOutcome :=
  let action := if existed then "updated" else "created"
  if status = "ACTIVE" then
    match attempt publishFails with
    | .error _ => .ok ⟨action, [.contentWrite existed, .publishAttempt]⟩
    | .ok _ => .ok ⟨action, [.contentWrite existed, .publishAttempt]⟩
  else if status = "DRAFT" ∧ existed = true then
    match attempt unpublishFails with
    | .error _ => .ok ⟨action, [.contentWrite existed, .unpublishAttempt]⟩
    | .ok _ => .ok ⟨action, [.contentWrite existed, .unpublishAttempt]⟩
  else
    .ok ⟨action, [.contentWrite existed]⟩

/-- Helper: `createOrUpdateFundraiser` always returns successfully — whatever
the publish/unpublish outcome — with the trace determined by `publishPhaseOps`. -/
theorem createOrUpdateFundraiserModel_run (teamPresent : Bool) (status : String)
    (existed pf uf : Bool) :
    createOrUpdateFundraiserModel teamPresent status existed pf uf
      = .ok ⟨if existed then "updated" else "created",
            ((if teamPresent then [.teamResolve] else []) ++ [.contentWrite existed])
              ++ publishPhaseOps status existed
              ++ (if teamPresent then [.mergeMember] else [])⟩ := by
  simp only [createOrUpdateFundraiserModel, publishPhaseOps, attempt]
  by_cases hA : status = "ACTIVE"
  · cases pf <;> simp [hA]
  · by_cases hD : status = "DRAFT" ∧ existed = true
    · cases uf <;> simp [hA, hD]
    · simp [hA, hD]

/-- Helper: the same for the `syncTeam` upsert core. -/
theorem syncTeamModel_run (status : String) (existed pf uf : Bool) :
    syncTeamModel status existed pf uf
      = .ok ⟨if existed then "updated" else "created",
            .contentWrite existed :: publishPhaseOps status existed⟩ := by
  simp only [syncTeamModel, publishPhaseOps, attempt]
  by_cases hA : status = "ACTIVE"
  · cases pf <;> simp [hA]
  · by_cases hD : status = "DRAFT" ∧ existed = true
    · cases uf <;> simp [hA, hD]
    · simp [hA, hD]

/-- Helper: the three branches of the publish/unpublish transition. -/
theorem publishPhaseOps_cases (status : String) (existed : Bool) :
    (status = "ACTIVE" → publishPhaseOps status existed = [.publishAttempt])
    ∧ (status = "DRAFT" → existed = true → publishPhaseOps status existed = [.unpublishAttempt])
    ∧ (existed = false → status ≠ "ACTIVE" → publishPhaseOps status existed = []) := by
  refine ⟨?_, ?_, ?_⟩
  · intro hA
    simp [publishPhaseOps, hA]
  · intro hD he
    have hA : status ≠ "ACTIVE" := by
      rw [hD]; decide
    simp [publishPhaseOps, hA, hD, he]
  · intro he hA
    simp [publishPhaseOps, hA, he]

/-- C4: for both upsert paths, after the content write an `ACTIVE` status
triggers a publish attempt (created or updated alike), a `DRAFT` status on a
pre-existing node triggers an unpublish attempt, a brand-new node with
non-`ACTIVE` status triggers neither, and publish/unpublish failures never
change the (successful) result of the upsert. -/
theorem upsert_status_transition (status : String) (teamPresent existed pf uf : Bool) :
    createOrUpdateFundraiserModel teamPresent status existed pf uf
      = .ok ⟨if existed then "updated" else "created",
            ((if teamPresent then [.teamResolve] else []) ++ [.contentWrite existed])
              ++ publishPhaseOps status existed
              ++ (if teamPresent then [.mergeMember] else [])⟩
    ∧ syncTeamModel status existed pf uf
      = .ok ⟨if existed then "updated" else "created",
            .contentWrite existed :: publishPhaseOps status existed⟩
    ∧ (status = "ACTIVE" → publishPhaseOps status existed = [.publishAttempt])
    ∧ (status = "DRAFT" → existed = true → publishPhaseOps status existed = [.unpublishAttempt])
    ∧ (existed = false → status ≠ "ACTIVE" → publishPhaseOps status existed = []) :=
  ⟨createOrUpdateFundraiserModel_run teamPresent status existed pf uf,
   syncTeamModel_run status existed pf uf,
   (publishPhaseOps_cases status existed).1,
   (publishPhaseOps_cases status existed).2.1,
   (publishPhaseOps_cases status existed).2.2⟩

/-- C4 witness: the transition theorem at concrete statuses. -/
theorem upsert_status_transition_witness :
    publishPhaseOps "ACTIVE" false = [.publishAttempt]
    ∧ publishPhaseOps "DRAFT" true = [.unpublishAttempt]
    ∧ publishPhaseOps "DRAFT" false = [] :=
  ⟨(upsert_status_transition "ACTIVE" false false false false).2.2.1 rfl,
   (upsert_status_transition "DRAFT" false true false false).2.2.2.1 rfl rfl,
   (upsert_status_transition "DRAFT" false false false false).2.2.2.2 rfl (by decide)⟩

/-- Embeds `StoryblokService.syncFundraiser` (src/services/storyblokService.js).
Campaign-folder and event resolution (whose failures throw earlier) are
elided.  For a `profile.created` event the computed full path is looked up:
when a story exists and no force-update override is given, the body write is
skipped, team data (when present) is still merged via `addTeamMember` on the
existing story, and the existing story is returned with action `found`;
otherwise control falls through to `createOrUpdateFundraiser`. -/
def syncFundraiserModel (eventType status : String)
    (existsAtPath teamPresent forceUpdate publishFails unpublishFails : Bool) :
    Except String UpsertOutcome :=
  if eventType = "profile.created" ∧ existsAtPath = true then
    if forceUpdate then
      createOrUpdateFundraiserModel teamPresent status existsAtPath publishFails unpublishFails
    else
      .ok ⟨"found", if teamPresent then [.mergeMember] else []⟩
  else
    createOrUpdateFundraiserModel teamPresent status existsAtPath publishFails unpublishFails

/-- C5: on a `profile.created` event for an already-existing full path, without
the override the body write is skipped and the result action is `found`; with
the override an update is performed; in both branches the team-membership
merge runs exactly when team data is present. -/
theorem syncFundraiser_found_skip (status : String) (teamPresent forceUpdate pf uf : Bool) :
    (forceUpdate = false →
      ∃ out : UpsertOutcome,
        syncFundraiserModel "profile.created" status true teamPresent false pf uf = .ok out
        ∧ out.action = "found"
        ∧ (∀ b : Bool, StoreOp.contentWrite b ∉ out.ops)
        ∧ (StoreOp.mergeMember ∈ out.ops ↔ teamPresent = true))
    ∧ (forceUpdate = true →
      ∃ out : UpsertOutcome,
        syncFundraiserModel "profile.created" status true teamPresent true pf uf = .ok out
        ∧ out.action = "updated"
        ∧ StoreOp.contentWrite true ∈ out.ops
        ∧ (StoreOp.mergeMember ∈ out.ops ↔ teamPresent = true)) := by
  constructor
  · intro _
    refine ⟨⟨"found", if teamPresent then [.mergeMember] else []⟩, ?_, rfl, ?_, ?_⟩
    · simp [syncFundraiserModel]
    · intro b
      cases teamPresent <;> simp
    · cases teamPresent <;> simp
  · intro _
    have hmain := createOrUpdateFundraiserModel_run teamPresent status true pf uf
    refine ⟨⟨"updated",
      ((if teamPresent then [.teamResolve] else []) ++ [.contentWrite true])
        ++ publishPhaseOps status true ++ (if teamPresent then [.mergeMember] else [])⟩, ?_, rfl, ?_, ?_⟩
    · simp only [syncFundraiserModel, if_pos (And.intro rfl rfl), if_pos rfl]
      simpa using hmain
    · simp
    · have hpub : StoreOp.mergeMember ∉ publishPhaseOps status true := by
        unfold publishPhaseOps
        split
        · simp
        · split <;> simp
      cases teamPresent <;> simp [hpub]

/-- C5 witness: the skip and force branches at concrete inputs. -/
theorem syncFundraiser_found_skip_witness :
    (∃ out : UpsertOutcome,
      syncFundraiserModel "profile.created" "ACTIVE" true true false false false = .ok out
      ∧ out.action = "found"
      ∧ (∀ b : Bool, StoreOp.contentWrite b ∉ out.ops)
      ∧ (StoreOp.mergeMember ∈ out.ops ↔ (true : Bool) = true))
    ∧ (∃ out : UpsertOutcome,
      syncFundraiserModel "profile.created" "ACTIVE" true true true false false = .ok out
      ∧ out.action = "updated"
      ∧ StoreOp.contentWrite true ∈ out.ops
      ∧ (StoreOp.mergeMember ∈ out.ops ↔ (true : Bool) = true)) :=
  ⟨(syncFundraiser_found_skip "ACTIVE" true false false false).1 rfl,
   (syncFundraiser_found_skip "ACTIVE" true true false false).2 rfl⟩

/-- A store node as seen by the folder resolver. -/
structure Story7 where
  id : Nat
  fullSlug : String
  isFolder : Bool
  deriving DecidableEq, Repr

/-- The store responses `getOrCreateCampaignFolder` can observe, in call order:
the exact-slug lookup, the broad folder listing, the creation attempt (its
error carries `error.response?.status` when the store answered), and the
exact-slug lookup retried after the backoff. -/
structure CampaignStoreEnv where
  slugLookup : List Story7
  broadLookup : List Story7
  createResult : Except (Option Nat) Story7
  retrySlugLookup : List Story7

/-- Trace entries for the folder resolver. -/
inductive FolderOp where
  | slugFind
  | broadFind
  | createCall
  | backoffWait
  | retryFind
  deriving DecidableEq, Repr

/-- The client-side filter applied to every lookup result: exact `full_slug`
match plus the folder flag. -/
def folderMatch (fullSlug : String) (s : Story7) : Bool :=
  s.fullSlug = fullSlug && s.isFolder

/-- Embeds `StoryblokService.getOrCreateCampaignFolder`
(src/services/storyblokService.js), from the exact-slug lookup down to the
race-recovery retry: exact lookup, then broad listing, then creation (which
includes the Team-subfolder creation whose failure is rethrown through the
same catch); a creation error whose status is 422 triggers one backoff and one
retried exact-slug lookup, whose hit is returned as success and whose miss
propagates the creation error; any other creation error propagates without a
retry. -/
def getOrCreateCampaignFolderModel (env : CampaignStoreEnv) (fullSlug : String) :
    Except (Option Nat) Story7 × List FolderOp :=
  match env.slugLookup.find? (folderMatch fullSlug) with
  | some f => (.ok f, [.slugFind])
  | none =>
    match env.broadLookup.find? (folderMatch fullSlug) with
    | some f => (.ok f, [.slugFind, .broadFind])
    | none =>
      match env.createResult with
      | .ok created => (.ok created, [.slugFind, .broadFind, .createCall])
      | .error st =>
        if st = some 422 then
          match env.retrySlugLookup.find? (folderMatch fullSlug) with
          | some f => (.ok f, [.slugFind, .broadFind, .createCall, .backoffWait, .retryFind])
          | none =>
            (.error st, [.slugFind, .broadFind, .createCall, .backoffWait, .retryFind])
        else (.error st, [.slugFind, .broadFind, .createCall])

/-- C7: when both lookups miss and creation reports a 422 conflict, the
resolver waits once and retries the exact-slug lookup exactly once, returning
a hit as success and otherwise propagating the creation error; any
non-conflict creation error propagates with no retry and no backoff. -/
theorem campaignFolder_conflict_retry (env : CampaignStoreEnv) (slug : String)
    (h1 : env.slugLookup.find? (folderMatch slug) = none)
    (h2 : env.broadLookup.find? (folderMatch slug) = none) :
    (env.createResult = .error (some 422) →
      ((getOrCreateCampaignFolderModel env slug).2.count .retryFind = 1
        ∧ (getOrCreateCampaignFolderModel env slug).2.count .backoffWait = 1)
      ∧ (∀ f, env.retrySlugLookup.find? (folderMatch slug) = some f →
          (getOrCreateCampaignFolderModel env slug).1 = .ok f)
      ∧ (env.retrySlugLookup.find? (folderMatch slug) = none →
          (getOrCreateCampaignFolderModel env slug).1 = .error (some 422)))
    ∧ (∀ st : Option Nat, st ≠ some 422 → env.createResult = .error st →
        (getOrCreateCampaignFolderModel env slug)
          = (.error st, [.slugFind, .broadFind, .createCall])) := by
  constructor
  · intro hc
    refine ⟨?_, ?_, ?_⟩
    · simp only [getOrCreateCampaignFolderModel, h1, h2, hc, if_pos rfl]
      cases hfind : env.retrySlugLookup.find? (folderMatch slug) <;> simp [hfind]
    · intro f hf
      simp [getOrCreateCampaignFolderModel, h1, h2, hc, hf]
    · intro hf
      simp [getOrCreateCampaignFolderModel, h1, h2, hc, hf]
  · intro st hst hc
    simp [getOrCreateCampaignFolderModel, h1, h2, hc, hst]

/-- C7 witness: the retry policy at a concrete environment (empty lookups,
422 conflict, folder visible on the retried lookup). -/
theorem campaignFolder_conflict_retry_witness :
    ((getOrCreateCampaignFolderModel
        ⟨[], [], .error (some 422), [⟨5, "fundraisers/camp", true⟩]⟩ "fundraisers/camp").2.count
        .retryFind = 1
      ∧ (getOrCreateCampaignFolderModel
        ⟨[], [], .error (some 422), [⟨5, "fundraisers/camp", true⟩]⟩ "fundraisers/camp").2.count
        .backoffWait = 1)
    ∧ (getOrCreateCampaignFolderModel
        ⟨[], [], .error (some 422), [⟨5, "fundraisers/camp", true⟩]⟩ "fundraisers/camp").1
        = .ok ⟨5, "fundraisers/camp", true⟩ := by
  have h := campaignFolder_conflict_retry
    ⟨[], [], .error (some 422), [⟨5, "fundraisers/camp", true⟩]⟩ "fundraisers/camp" rfl rfl
  exact ⟨(h.1 rfl).1, (h.1 rfl).2.1 ⟨5, "fundraisers/camp", true⟩ (by decide)⟩

/-- The `campaign` field of a Raisely profile: either a plain string or an
object carrying `name`/`title` (other object fields are unused by the
engine). -/
inductive CampVal where
  | str (s : String)
  | obj (cname ctitle : Option String)
  deriving DecidableEq, Repr

/-- JavaScript truthiness of the `campaign` field (objects are always truthy,
strings are truthy when non-empty). -/
def campTruthy : Option CampVal → Bool
  | some (.str s) => s ≠ ""
  | some (.obj _ _) => true
  | none => false

/-- The chain `campaign.name || campaign.title || campaign`.  On a string the property
reads are undefined and the chain yields the string itself; on an object with
both properties falsy the chain yields the object, which every downstream use
coerces to the string form of an object. -/
def campaignNameOf : Option CampVal → Option String
  | some (.str s) => some s
  | some (.obj n t) =>
    if jsStrTruthy n then n else if jsStrTruthy t then t else some "[object Object]"
  | none => none

/-- One ancestor entry of a profile's `parent` reference chain (the fields the
engine reads from a parent object). -/
structure ParentInfo where
  name : Option String
  path : Option String
  ptype : Option String
  isCampaignProfile : Option Bool
  deriving DecidableEq, Repr

/-- A Raisely profile record as read by the extractors.  The linked
`parent`/`parent.parent`/… chain is flattened into `parentChain` (empty list =
no parent); `ptype` embeds the JSON field `type`.  Description and URL fields
are not modelled (no claim touches them). -/
structure RProfile where
  name : Option String
  path : Option String
  campaignName : Option String
  status : Option String
  ptype : Option String
  isCampaignProfile : Option Bool
  campaign : Option CampVal
  goal : JNum
  target : JNum
  targetAmount : JNum
  total : JNum
  raisedAmount : JNum
  parentChain : List ParentInfo
  deriving DecidableEq, Repr

/-- Embeds `BulkImporter.findCampaignFromParent` (scripts/bulk-import.js) over
the flattened chain: the name of the first ancestor with
`isCampaignProfile === true`; else recurse while a further parent exists; at
the end of the chain, the last ancestor's name, or the default label when that
name is falsy.  The empty-chain case is the function's `if (!parent)` guard. -/
def findCampaignFromParent : List ParentInfo → Option String
  | [] => some "Default Campaign"
  | p :: rest =>
    if p.isCampaignProfile = some true then p.name
    else
      match rest with
      | _ :: _ => findCampaignFromParent rest
      | [] => if jsStrTruthy p.name then p.name else some "Default Campaign"

/-- JavaScript `String.prototype.split(sep)` over the character list: at least one part,
empty parts preserved. -/
def jsSplit (sep : Char) : List Char → List (List Char)
  | [] => [[]]
  | c :: cs =>
    match jsSplit sep cs with
    | h :: t => if c = sep then [] :: h :: t else (c :: h) :: t
    | [] => if c = sep then [[], []] else [[c]]

/-- The first path segment used by both extractors when no campaign source is
available: `path.split('/')[0]`, taken only when the split has more than one
part, else the fixed default label. -/
def pathCampaign (path : Option String) : Option String :=
  match path with
  | some pa =>
    if pa ≠ "" then
      (if 1 < (jsSplit '/' pa.data).length
       then some (String.mk ((jsSplit '/' pa.data).headD []))
       else some "Default Campaign")
    else some "Default Campaign"
  | none => some "Default Campaign"

/-- Embeds the campaign-name chain of `BulkImporter.extractFundraiserData` /
`extractTeamData` (scripts/bulk-import.js): `campaign` field, then
`campaignName`, then the parent-chain walk, then the first path segment, with
`Default Campaign` as the starting value. -/
def deriveCampaignNameBulk (p : RProfile) : Option String :=
  if campTruthy p.campaign then campaignNameOf p.campaign
  else if jsStrTruthy p.campaignName then p.campaignName
  else
    match p.parentChain with
    | _ :: _ => findCampaignFromParent p.parentChain
    | [] => pathCampaign p.path

/-- Embeds the campaign-name chain of `WebhookController.extractFundraiserData`
(src/controllers/webhookController.js): identical except that a present parent
contributes its own `name` directly — no walk up the chain. -/
def deriveCampaignNameWebhook (p : RProfile) : Option String :=
  if campTruthy p.campaign then campaignNameOf p.campaign
  else if jsStrTruthy p.campaignName then p.campaignName
  else
    match p.parentChain with
    | q :: _ => q.name
    | [] => pathCampaign p.path

/-- Modelled from the spec: the name of the nearest Campaign-kind ancestor in
the chain, with the stated fallback applied when there is none. -/
def nearestCampaignAncestorName (chain : List ParentInfo) (fallback : Option String) :
    Option String :=
  match chain.find? (fun a => a.isCampaignProfile = some true) with
  | some a => a.name
  | none => fallback

/-- The fallback the code actually uses when the chain is exhausted: the last
ancestor's name, or the default label when that name is falsy. -/
def lastAncestorFallback (chain : List ParentInfo) : Option String :=
  match chain.getLast? with
  | some a => if jsStrTruthy a.name then a.name else some "Default Campaign"
  | none => some "Default Campaign"

theorem findCampaignFromParent_eq_nearest (chain : List ParentInfo) :
    findCampaignFromParent chain
      = nearestCampaignAncestorName chain (lastAncestorFallback chain) := by
  induction chain with
  | nil => rfl
  | cons p rest ih =>
    by_cases hp : p.isCampaignProfile = some true
    · simp [findCampaignFromParent, nearestCampaignAncestorName, hp]
    · cases rest with
      | nil =>
        simp [findCampaignFromParent, nearestCampaignAncestorName, lastAncestorFallback, hp]
      | cons q rest' =>
        have hstep : findCampaignFromParent (p :: q :: rest')
            = findCampaignFromParent (q :: rest') := by
          conv_lhs => rw [findCampaignFromParent]
          rw [if_neg hp]
        rw [hstep, ih]
        have hfind : (p :: q :: rest').find? (fun a => a.isCampaignProfile = some true)
            = (q :: rest').find? (fun a => a.isCampaignProfile = some true) := by
          rw [List.find?_cons_of_neg]
          simpa using hp
        have hlast : (p :: q :: rest').getLast? = (q :: rest').getLast? :=
          List.getLast?_cons_cons
        simp [nearestCampaignAncestorName, lastAncestorFallback, hfind, hlast]

/-- The concrete profile refuting C8: no campaign fields, a parent chain with
one non-Campaign ancestor named `T`, and a path whose first segment is
`camp1`. -/
def chainExhaustedProfile : RProfile :=
  ⟨some "p", some "camp1/p", none, none, none, none, none,
   .null, .null, .null, .null, .null,
   [⟨some "T", some "camp1/t1", some "GROUP", some false⟩]⟩

/-- C8 counterexample: with the parent chain exhausted without a Campaign-kind
ancestor, the bulk extractor derives the campaign name from the last
ancestor's name (`T`), not from the first path segment (`camp1`). -/
theorem campaign_derivation_cex :
    deriveCampaignNameBulk chainExhaustedProfile = some "T"
    ∧ pathCampaign chainExhaustedProfile.path = some "camp1"
    ∧ some "T" ≠ some "camp1" := by
  refine ⟨rfl, by decide, by decide⟩

/-- C8 (amended): when the campaign fields are absent, the bulk path derives
the campaign name by walking the chain to the nearest Campaign-kind ancestor;
when the chain is exhausted without one, it uses the last ancestor's name (or
the default label when that name is empty) — not the first path segment, which
is used only when there is no parent at all; the webhook path does not walk
the chain and uses the immediate parent's name whatever its kind. -/
theorem campaign_derivation_amended (p : RProfile)
    (hc : campTruthy p.campaign = false) (hcn : jsStrTruthy p.campaignName = false) :
    (p.parentChain ≠ [] →
      deriveCampaignNameBulk p
        = nearestCampaignAncestorName p.parentChain (lastAncestorFallback p.parentChain))
    ∧ (∀ q rest, p.parentChain = q :: rest → deriveCampaignNameWebhook p = q.name)
    ∧ (p.parentChain = [] →
      deriveCampaignNameBulk p = pathCampaign p.path
      ∧ deriveCampaignNameWebhook p = pathCampaign p.path) := by
  refine ⟨?_, ?_, ?_⟩
  · intro hne
    rw [← findCampaignFromParent_eq_nearest]
    cases hch : p.parentChain with
    | nil => exact absurd hch hne
    | cons q rest => simp [deriveCampaignNameBulk, hc, hcn, hch]
  · intro q rest hch
    simp [deriveCampaignNameWebhook, hc, hcn, hch]
  · intro hch
    constructor
    · simp [deriveCampaignNameBulk, hc, hcn, hch]
    · simp [deriveCampaignNameWebhook, hc, hcn, hch]

/-- C8 witness: the amended theorem at the concrete exhausted-chain profile. -/
theorem campaign_derivation_amended_witness :
    deriveCampaignNameBulk chainExhaustedProfile
      = nearestCampaignAncestorName chainExhaustedProfile.parentChain
          (lastAncestorFallback chainExhaustedProfile.parentChain) :=
  (campaign_derivation_amended chainExhaustedProfile rfl rfl).1 (by decide)

/-- The normalized record both extractors produce (description, profile URL
and Raisely id are assembled the same way but touched by no claim, so they are
not modelled). -/
structure ExtractedData where
  name : String
  campaign : Option String
  targetAmount : ℚ
  raisedAmount : ℚ
  path : String
  status : String
  deriving DecidableEq, Repr

/-- Embeds `WebhookController.extractFundraiserData`
(src/controllers/webhookController.js): `null` when `name` or `path` is
missing; amounts from `goal || target || targetAmount || 0` and
`total || raisedAmount || 0` through the webhook normalizer; status
`profile.status || 'DRAFT'`. -/
def extractFundraiserDataWebhook (p : RProfile) : Option ExtractedData :=
  if ¬ jsStrTruthy p.name = true then none
  else if ¬ jsStrTruthy p.path = true then none
  else some
    ⟨p.name.getD "",
     deriveCampaignNameWebhook p,
     normalizeAmountWebhook (jnumOr p.goal (jnumOr p.target (jnumOr p.targetAmount (.num 0)))),
     normalizeAmountWebhook (jnumOr p.total (jnumOr p.raisedAmount (.num 0))),
     p.path.getD "",
     if jsStrTruthy p.status then p.status.getD "" else "DRAFT"⟩

/-- Embeds `BulkImporter.extractFundraiserData` (scripts/bulk-import.js): same
shape, but amounts go through the bulk normalizer and the campaign name walks
the parent chain. -/
def extractFundraiserDataBulk (p : RProfile) : Option ExtractedData :=
  if ¬ jsStrTruthy p.name = true then none
  else if ¬ jsStrTruthy p.path = true then none
  else some
    ⟨p.name.getD "",
     deriveCampaignNameBulk p,
     normalizeAmountBulk (jnumOr p.goal (jnumOr p.target (jnumOr p.targetAmount (.num 0)))),
     normalizeAmountBulk (jnumOr p.total (jnumOr p.raisedAmount (.num 0))),
     p.path.getD "",
     if jsStrTruthy p.status then p.status.getD "" else "DRAFT"⟩

/-- C10: a profile without a status field is extracted with status `DRAFT`
(webhook and bulk extractor alike), and the upsert at status `DRAFT` never
attempts a publish, attempts an unpublish exactly when the node already
existed, and still returns success. -/
theorem statusless_update_unpublishes (p : RProfile) (hs : p.status = none)
    (dW dB : ExtractedData)
    (hW : extractFundraiserDataWebhook p = some dW)
    (hB : extractFundraiserDataBulk p = some dB) :
    dW.status = "DRAFT" ∧ dB.status = "DRAFT"
    ∧ (∀ teamPresent existed pf uf : Bool,
        ∃ out : UpsertOutcome,
          createOrUpdateFundraiserModel teamPresent "DRAFT" existed pf uf = .ok out
          ∧ StoreOp.publishAttempt ∉ out.ops
          ∧ (StoreOp.unpublishAttempt ∈ out.ops ↔ existed = true)) := by
  refine ⟨?_, ?_, ?_⟩
  · unfold extractFundraiserDataWebhook at hW
    by_cases hn : jsStrTruthy p.name = true
    · by_cases hp : jsStrTruthy p.path = true
      · rw [if_neg (by simp [hn]), if_neg (by simp [hp])] at hW
        have h2 := Option.some.inj hW
        rw [← h2]
        simp [hs, jsStrTruthy]
      · rw [if_neg (by simp [hn]), if_pos (by simp [hp])] at hW
        exact absurd hW (by simp)
    · rw [if_pos (by simp [hn])] at hW
      exact absurd hW (by simp)
  · unfold extractFundraiserDataBulk at hB
    by_cases hn : jsStrTruthy p.name = true
    · by_cases hp : jsStrTruthy p.path = true
      · rw [if_neg (by simp [hn]), if_neg (by simp [hp])] at hB
        have h2 := Option.some.inj hB
        rw [← h2]
        simp [hs, jsStrTruthy]
      · rw [if_neg (by simp [hn]), if_pos (by simp [hp])] at hB
        exact absurd hB (by simp)
    · rw [if_pos (by simp [hn])] at hB
      exact absurd hB (by simp)
  · intro teamPresent existed pf uf
    have h := createOrUpdateFundraiserModel_run teamPresent "DRAFT" existed pf uf
    refine ⟨_, h, ?_, ?_⟩
    · cases existed <;> cases teamPresent <;> simp [publishPhaseOps]
    · cases existed <;> cases teamPresent <;> simp [publishPhaseOps]

/-- A concrete status-less profile for the C10 witness. -/
def statuslessProfile : RProfile :=
  ⟨some "Jane", some "camp/jane", none, none, none, none,
   some (.obj (some "Camp") none), .null, .null, .null, .null, .null, []⟩

/-- C10 witness: the theorem at the concrete status-less profile. -/
theorem statusless_update_unpublishes_witness :
    ∃ out : UpsertOutcome,
      createOrUpdateFundraiserModel false "DRAFT" true false false = .ok out
      ∧ StoreOp.publishAttempt ∉ out.ops
      ∧ (StoreOp.unpublishAttempt ∈ out.ops ↔ (true : Bool) = true) :=
  ((statusless_update_unpublishes statuslessProfile rfl
      ⟨"Jane", some "Camp", 0, 0, "camp/jane", "DRAFT"⟩
      ⟨"Jane", some "Camp", 0, 0, "camp/jane", "DRAFT"⟩
      rfl rfl).2.2) false true false false

/-- Embeds `BulkImporter.isTeamProfile` (scripts/bulk-import.js):
`profile.type === 'GROUP' && profile.isCampaignProfile === false`. -/
def isTeamProfile (p : RProfile) : Bool :=
  p.ptype = some "GROUP" && p.isCampaignProfile = some false

/-- The same check applied to a parent object. -/
def isTeamParent (q : ParentInfo) : Bool :=
  q.ptype = some "GROUP" && q.isCampaignProfile = some false

/-- The sequential-group condition of `BulkImporter.processBatch`:
`!isTeamProfile(profile) && profile.parent && isTeamProfile(profile.parent)`. -/
def seqCond (p : RProfile) : Bool :=
  !isTeamProfile p &&
    match p.parentChain with
    | q :: _ => isTeamParent q
    | [] => false

/-- The Map key of `processBatch`: a template string of the parent's name and
path (an absent field renders as the string form of undefined). -/
def teamKeyOf (p : RProfile) : String :=
  match p.parentChain with
  | q :: _ => q.name.getD "undefined" ++ "-" ++ q.path.getD "undefined"
  | [] => "undefined" ++ "-" ++ "undefined"

/-- The step `teamGroups.get(key).push(profile)`, creating the key on first use —
insertion-ordered, append-at-end, exactly like the source's `Map` of lists. -/
def pushGroup (k : String) (p : RProfile) :
    List (String × List RProfile) → List (String × List RProfile)
  | [] => [(k, [p])]
  | (k', g) :: rest =>
    if k' = k then (k', g ++ [p]) :: rest else (k', g) :: pushGroup k p rest

/-- One iteration of the grouping loop of `processBatch`. -/
def partitionStep (acc : List RProfile × List (String × List RProfile)) (p : RProfile) :
    List RProfile × List (String × List RProfile) :=
  if seqCond p then (acc.1, pushGroup (teamKeyOf p) p acc.2)
  else (acc.1 ++ [p], acc.2)

/-- Embeds the grouping phase of `BulkImporter.processBatch`
(scripts/bulk-import.js): the parallel-dispatch list
(`individualsWithoutTeams`, which also receives the team profiles themselves)
and the per-team sequential groups. -/
def partitionBatch (batch : List RProfile) :
    List RProfile × List (String × List RProfile) :=
  batch.foldl partitionStep ([], [])

/-- Lookup of a group by its team key. -/
def glookup (k : String) : List (String × List RProfile) → Option (List RProfile)
  | [] => none
  | (k', g) :: rest => if k' = k then some g else glookup k rest

/-- The members of the group keyed `k`, empty when the key is absent. -/
def ggetD (k : String) (gs : List (String × List RProfile)) : List RProfile :=
  (glookup k gs).getD []

theorem glookup_pushGroup_same (k : String) (p : RProfile)
    (gs : List (String × List RProfile)) :
    glookup k (pushGroup k p gs) = some (ggetD k gs ++ [p]) := by
  induction gs with
  | nil => simp [pushGroup, glookup, ggetD]
  | cons e rest ih =>
    obtain ⟨k', g⟩ := e
    by_cases hk : k' = k
    · subst hk
      simp [pushGroup, glookup, ggetD]
    · simp [pushGroup, glookup, hk, ih, ggetD]

theorem glookup_pushGroup_other (k k0 : String) (p : RProfile)
    (gs : List (String × List RProfile)) (hk : k ≠ k0) :
    glookup k (pushGroup k0 p gs) = glookup k gs := by
  have hk' : ¬ k0 = k := fun h => hk h.symm
  induction gs with
  | nil => simp [pushGroup, glookup, hk']
  | cons e rest ih =>
    obtain ⟨k', g⟩ := e
    by_cases hke : k' = k0
    · subst hke
      simp [pushGroup, glookup, hk']
    · simp [pushGroup, glookup, hke, ih]

theorem ggetD_pushGroup_same (k : String) (p : RProfile)
    (gs : List (String × List RProfile)) :
    ggetD k (pushGroup k p gs) = ggetD k gs ++ [p] := by
  simp [ggetD, glookup_pushGroup_same]

theorem ggetD_pushGroup_other (k k0 : String) (p : RProfile)
    (gs : List (String × List RProfile)) (hk : k ≠ k0) :
    ggetD k (pushGroup k0 p gs) = ggetD k gs := by
  simp [ggetD, glookup_pushGroup_other k k0 p gs hk]

theorem partition_foldl_fst (l : List RProfile)
    (P : List RProfile) (G : List (String × List RProfile)) :
    (l.foldl partitionStep (P, G)).1 = P ++ l.filter (fun q => !seqCond q) := by
  induction l generalizing P G with
  | nil => simp
  | cons p rest ih =>
    by_cases hp : seqCond p = true
    · simp [partitionStep, hp, ih]
    · simp only [List.foldl_cons, partitionStep, if_neg hp]
      rw [ih]
      simp [hp]

theorem partition_foldl_group (l : List RProfile) (k : String)
    (P : List RProfile) (G : List (String × List RProfile)) :
    ggetD k (l.foldl partitionStep (P, G)).2
      = ggetD k G ++ l.filter (fun q => seqCond q && teamKeyOf q == k) := by
  induction l generalizing P G with
  | nil => simp
  | cons p rest ih =>
    by_cases hp : seqCond p = true
    · by_cases hk : teamKeyOf p = k
      · subst hk
        simp only [List.foldl_cons, partitionStep, if_pos hp]
        rw [ih, ggetD_pushGroup_same]
        simp [hp]
      · simp only [List.foldl_cons, partitionStep, if_pos hp]
        rw [ih, ggetD_pushGroup_other k (teamKeyOf p) p G (fun h => hk h.symm)]
        have hb : (teamKeyOf p == k) = false := by
          simp [hk]
        simp [hb]
    · simp only [List.foldl_cons, partitionStep, if_neg hp]
      rw [ih]
      simp [hp]

/-- C9: the grouping phase of `processBatch` sends a non-team profile whose
parent is a team profile to the sequential group keyed by that team — the
group holds exactly those profiles, in batch order — and every other profile
(team profiles and individuals without a team) to the parallel list, so each
profile lands in exactly one group. -/
theorem processBatch_partition (batch : List RProfile) (k : String) (p : RProfile) :
    (partitionBatch batch).1 = batch.filter (fun q => !seqCond q)
    ∧ ggetD k (partitionBatch batch).2
        = batch.filter (fun q => seqCond q && teamKeyOf q == k)
    ∧ (p ∈ batch → (p ∈ (partitionBatch batch).1 ↔ seqCond p = false))
    ∧ (p ∈ batch →
        (p ∈ ggetD (teamKeyOf p) (partitionBatch batch).2 ↔ seqCond p = true)) := by
  have h1 : (partitionBatch batch).1 = batch.filter (fun q => !seqCond q) := by
    unfold partitionBatch
    rw [partition_foldl_fst]
    simp
  have h2 : ∀ k' : String, ggetD k' (partitionBatch batch).2
      = batch.filter (fun q => seqCond q && teamKeyOf q == k') := by
    intro k'
    unfold partitionBatch
    rw [partition_foldl_group]
    simp [ggetD, glookup]
  refine ⟨h1, h2 k, ?_, ?_⟩
  · intro hmem
    rw [h1]
    simp [List.mem_filter, hmem]
  · intro hmem
    rw [h2 (teamKeyOf p)]
    simp [List.mem_filter, hmem]

/-- Concrete profiles for the C9 witness: a team, a member of that team, and a
solo individual. -/
def teamProfileW : RProfile :=
  ⟨some "T", some "camp/t", none, none, some "GROUP", some false, none,
   .null, .null, .null, .null, .null, []⟩

def memberProfileW : RProfile :=
  ⟨some "M", some "camp/m", none, none, some "INDIVIDUAL", some false, none,
   .null, .null, .null, .null, .null,
   [⟨some "T", some "camp/t", some "GROUP", some false⟩]⟩

def soloProfileW : RProfile :=
  ⟨some "S", some "camp/s", none, none, some "INDIVIDUAL", some false, none,
   .null, .null, .null, .null, .null, []⟩

/-- C9 witness: the partition theorem at a concrete three-profile batch. -/
theorem processBatch_partition_witness :
    memberProfileW ∈ [teamProfileW, memberProfileW, soloProfileW] ∧
    (memberProfileW ∈ ggetD (teamKeyOf memberProfileW)
        (partitionBatch [teamProfileW, memberProfileW, soloProfileW]).2
      ↔ seqCond memberProfileW = true) :=
  ⟨by simp,
   (processBatch_partition [teamProfileW, memberProfileW, soloProfileW]
      (teamKeyOf memberProfileW) memberProfileW).2.2.2 (by simp)⟩
